import Mathlib

/-!
Verification of the traversal-and-classification engine of `canhazaxs.c`:
the permission evaluator (`is_executable`, `is_writable`, `is_readable`,
`is_setuid`, `is_setgid`), the bucketed recorder (`record_access`,
`record_access_level`) and the recursive directory walker
(`scan_directory`).  The C code is shallowly embedded: the global identity
(`g_uid`, `g_groups`) becomes an explicit `Identity` value, the five global
`entries_t` buckets become an explicit `ScanSt` value threaded through the
functions, the filesystem seen through `opendir`/`readdir`/`lstat` becomes
an `FSTree` value, and `exit(1)` on allocation failure becomes the `error`
case of `Except Unit`.
-/

namespace Canhazaxs

/-! Mode-bit constants from `sys/stat.h` (octal values as used by the C). -/

def S_IXOTH : Nat := 1
def S_IWOTH : Nat := 2
def S_IROTH : Nat := 4
def S_IXGRP : Nat := 8
def S_IWGRP : Nat := 16
def S_IRGRP : Nat := 32
def S_IXUSR : Nat := 64
def S_IWUSR : Nat := 128
def S_IRUSR : Nat := 256
def S_ISGID : Nat := 1024
def S_ISUID : Nat := 2048
def S_IFMT : Nat := 61440
def S_IFDIR : Nat := 16384
def S_IFLNK : Nat := 40960

/-- Test macro `S_ISLNK(m)`: `(m & S_IFMT) == S_IFLNK`. -/
def S_ISLNK (m : Nat) : Bool := m &&& S_IFMT == S_IFLNK

/-- Test macro `S_ISDIR(m)`: `(m & S_IFMT) == S_IFDIR`. -/
def S_ISDIR (m : Nat) : Bool := m &&& S_IFMT == S_IFDIR

/-- The fields of `struct stat` the program reads. -/
structure Stat where
  st_mode : Nat
  st_uid : Nat
  st_gid : Nat
deriving DecidableEq

/-- A zero-filled stat buffer, standing for uninitialized memory. -/
def statZero : Stat := ⟨0, 0, 0⟩

/-- The identity under test: globals `g_uid` and `g_groups[0..g_ngroups)`. -/
structure Identity where
  uid : Nat
  gids : List Nat
deriving DecidableEq

/-- Function `in_group`: linear scan of `g_groups` for an equal gid. -/
def in_group (idn : Identity) (gid : Nat) : Bool :=
  idn.gids.any (fun g => g == gid)

/-- Function `is_executable` (canhazaxs.c lines 342-354). -/
def is_executable (idn : Identity) (sb : Stat) : Bool :=
  if idn.uid == 0 then true
  else if sb.st_mode &&& S_IXOTH != 0 then true
  else if (sb.st_mode &&& S_IXUSR != 0) && sb.st_uid == idn.uid then true
  else if (sb.st_mode &&& S_IXGRP != 0) && in_group idn sb.st_gid then true
  else false

/-- Function `is_setuid` (lines 357-361). -/
def is_setuid (idn : Identity) (sb : Stat) : Bool :=
  is_executable idn sb && (sb.st_mode &&& S_ISUID != 0)

/-- Function `is_setgid` (lines 364-368). -/
def is_setgid (idn : Identity) (sb : Stat) : Bool :=
  is_executable idn sb && (sb.st_mode &&& S_ISGID != 0)

/-- Function `is_writable` (lines 371-385): the root bypass is commented out
in the source. -/
def is_writable (idn : Identity) (sb : Stat) : Bool :=
  if sb.st_mode &&& S_IWOTH != 0 then true
  else if (sb.st_mode &&& S_IWUSR != 0) && sb.st_uid == idn.uid then true
  else if (sb.st_mode &&& S_IWGRP != 0) && in_group idn sb.st_gid then true
  else false

/-- Function `is_readable` (lines 388-402): the root bypass is commented out
in the source. -/
def is_readable (idn : Identity) (sb : Stat) : Bool :=
  if sb.st_mode &&& S_IROTH != 0 then true
  else if (sb.st_mode &&& S_IRUSR != 0) && sb.st_uid == idn.uid then true
  else if (sb.st_mode &&& S_IRGRP != 0) && in_group idn sb.st_gid then true
  else false

/-- Struct `entry_t`: a recorded path (duplicated by `strdup`) and a copy of
its stat buffer. -/
structure entry_t where
  path : String
  statbuf : Stat
deriving DecidableEq

/-- Struct `entries_t`: `len` is the capacity of the backing array, `idx`
the number of used slots, `head` the backing array itself (modelled as a
list of length `len`; a freshly reallocated cell holds junk, modelled as
`⟨"", statZero⟩`). -/
structure entries_t where
  len : Nat
  idx : Nat
  head : List entry_t
deriving DecidableEq

/-- An empty bucket, the initializer `{ 0, 0, NULL }` of the globals. -/
def entriesNil : entries_t := ⟨0, 0, []⟩

/-- Function `record_access` (lines 405-428).  `allocOk` states whether
`realloc` succeeds; on failure the C prints and calls `exit(1)`, modelled as
`Except.error ()`.  On a full array the capacity grows by exactly one
(`realloc(head, (len + 1) * sizeof(entry_t))`), then the new record is
written at the old `idx` and `idx` is incremented. -/
def record_access (allocOk : Bool) (p : entries_t) (path : String) (sb : Stat) :
    Except Unit entries_t :=
  let new_next_idx := p.idx + 1
  if new_next_idx > p.len then
    if allocOk then
      Except.ok ⟨p.len + 1, new_next_idx,
        (p.head ++ [(⟨"", statZero⟩ : entry_t)]).set p.idx ⟨path, sb⟩⟩
    else
      Except.error ()
  else
    Except.ok ⟨p.len, new_next_idx, p.head.set p.idx ⟨path, sb⟩⟩

/-- The five global buckets `g_suid`, `g_sgid`, `g_writable`, `g_readable`,
`g_executable` (the last two exist only under `RECORD_LESS_INTERESTING`,
which the `ext` flag of the functions below reflects). -/
structure ScanSt where
  g_suid : entries_t
  g_sgid : entries_t
  g_writable : entries_t
  g_readable : entries_t
  g_executable : entries_t
deriving DecidableEq

/-- The initial scan state: all five buckets `{ 0, 0, NULL }`. -/
def emptySt : ScanSt := ⟨entriesNil, entriesNil, entriesNil, entriesNil, entriesNil⟩

/-- Function `record_access_level` (lines 433-448): the priority chain of
bucket assignment.  `ext` is the `RECORD_LESS_INTERESTING` compile flag
guarding the `readable` and `only executable` branches. -/
def record_access_level (ext allocOk : Bool) (idn : Identity) (path : String)
    (sb : Stat) (st : ScanSt) : Except Unit ScanSt :=
  if is_setuid idn sb then
    (record_access allocOk st.g_suid path sb).map
      (fun e => ⟨e, st.g_sgid, st.g_writable, st.g_readable, st.g_executable⟩)
  else if is_setgid idn sb then
    (record_access allocOk st.g_sgid path sb).map
      (fun e => ⟨st.g_suid, e, st.g_writable, st.g_readable, st.g_executable⟩)
  else if is_writable idn sb then
    (record_access allocOk st.g_writable path sb).map
      (fun e => ⟨st.g_suid, st.g_sgid, e, st.g_readable, st.g_executable⟩)
  else if ext then
    if is_readable idn sb then
      (record_access allocOk st.g_readable path sb).map
        (fun e => ⟨st.g_suid, st.g_sgid, st.g_writable, e, st.g_executable⟩)
    else if is_executable idn sb then
      (record_access allocOk st.g_executable path sb).map
        (fun e => ⟨st.g_suid, st.g_sgid, st.g_writable, st.g_readable, e⟩)
    else Except.ok st
  else Except.ok st

/-- The `.`/`..` test of `scan_directory` (lines 477-482): character-by-
character checks `d_name[0] == '.'`, then `d_name[1] == '\0'`, then
`d_name[1] == '.' && d_name[2] == '\0'`. -/
def skip_special (name : String) : Bool :=
  match name.data with
  | [] => false
  | c0 :: rest0 =>
    if c0 = '.' then
      match rest0 with
      | [] => true
      | c1 :: rest1 =>
        if c1 = '.' then
          match rest1 with
          | [] => true
          | _ :: _ => false
        else false
    else false

/-- `PATH_MAX` from `limits.h` on Linux. -/
def PATH_MAX : Nat := 4096

/-- The length guard of `scan_directory` (line 485):
`end - canonical_path >= PATH_MAX - 1 - strlen(pe->d_name)`, where
`end - canonical_path` is the length of `dir` just copied into the buffer.
The right-hand side mixes `int` and `size_t`, so both sides are compared as
`size_t`, i.e. modulo `2 ^ 64`. -/
def name_too_long (dir name : String) : Bool :=
  decide ((dir.length : Int) % 2 ^ 64 ≥
    ((PATH_MAX : Int) - 1 - (name.length : Int)) % 2 ^ 64)

/-- Path construction of `scan_directory` (lines 484-491): copy `dir`,
append a `/` unless `dir` is empty or already ends in one, append `name`. -/
def join_path (dir name : String) : String :=
  if dir.data ≠ [] ∧ dir.data.getLast? ≠ some '/' then dir ++ "/" ++ name
  else dir ++ name

/-- The filesystem as the walker observes it through `lstat`, `opendir` and
`readdir`: a node carries whether `lstat` of its path succeeds (`statOk`),
the stat buffer `lstat` fills in, whether `opendir` of its path succeeds
(`openOk`), and the named entries `readdir` yields, in readdir order. -/
inductive FSTree where
  | node (statOk : Bool) (sb : Stat) (openOk : Bool)
      (entries : List (String × FSTree)) : FSTree

mutual

/-- Function `scan_directory` (lines 462-519): open the directory (on
failure report and return, non-fatal), then process each `readdir` entry. -/
def scan_directory (ext allocOk : Bool) (idn : Identity) (dir : String)
    (t : FSTree) (st : ScanSt) : Except Unit ScanSt :=
  match t with
  | .node _ _ openOk entries =>
    if openOk then scan_entries ext allocOk idn dir entries st
    else Except.ok st
termination_by (sizeOf t, 0)

/-- The `while ((pe = readdir(pd)))` loop of `scan_directory`. -/
def scan_entries (ext allocOk : Bool) (idn : Identity) (dir : String)
    (es : List (String × FSTree)) (st : ScanSt) : Except Unit ScanSt :=
  match es with
  | [] => Except.ok st
  | (name, child) :: rest =>
    match process_entry ext allocOk idn dir name child st with
    | Except.error e => Except.error e
    | Except.ok st2 => scan_entries ext allocOk idn dir rest st2
termination_by (sizeOf es, 2)

/-- One iteration of the `readdir` loop (lines 477-515): skip `.` and `..`,
skip (with a warning) a too-long path, `lstat` the joined path (on failure
skip with a warning), skip symlinks, classify via `record_access_level`,
and recurse when the entry is a directory the identity can execute. -/
def process_entry (ext allocOk : Bool) (idn : Identity) (dir name : String)
    (child : FSTree) (st : ScanSt) : Except Unit ScanSt :=
  if skip_special name then Except.ok st
  else if name_too_long dir name then Except.ok st
  else
    match child with
    | .node statOk sb openOk entries =>
      if !statOk then Except.ok st
      else if S_ISLNK sb.st_mode then Except.ok st
      else
        match record_access_level ext allocOk idn (join_path dir name) sb st with
        | Except.error e => Except.error e
        | Except.ok st2 =>
          if S_ISDIR sb.st_mode && is_executable idn sb then
            scan_directory ext allocOk idn (join_path dir name)
              (.node statOk sb openOk entries) st2
          else Except.ok st2
termination_by (sizeOf child, 1)

end

/-- Unfolding `scan_directory` at a node. -/
theorem scan_directory_node (ext allocOk : Bool) (idn : Identity)
    (dir : String) (statOk : Bool) (sb : Stat) (openOk : Bool)
    (entries : List (String × FSTree)) (st : ScanSt) :
    scan_directory ext allocOk idn dir (.node statOk sb openOk entries) st =
      (if openOk then scan_entries ext allocOk idn dir entries st
      else Except.ok st) := by
  conv_lhs => unfold scan_directory

/-- Unfolding `scan_entries` at a cons cell. -/
theorem scan_entries_cons (ext allocOk : Bool) (idn : Identity)
    (dir name : String) (child : FSTree) (rest : List (String × FSTree))
    (st : ScanSt) :
    scan_entries ext allocOk idn dir ((name, child) :: rest) st =
      (match process_entry ext allocOk idn dir name child st with
      | Except.error e => Except.error e
      | Except.ok st2 => scan_entries ext allocOk idn dir rest st2) := by
  conv_lhs => unfold scan_entries

/-- Unfolding `scan_entries` at the empty listing. -/
theorem scan_entries_nil (ext allocOk : Bool) (idn : Identity) (dir : String)
    (st : ScanSt) :
    scan_entries ext allocOk idn dir [] st = Except.ok st := by
  conv_lhs => unfold scan_entries

/-- Unfolding `process_entry` at a node. -/
theorem process_entry_node (ext allocOk : Bool) (idn : Identity)
    (dir name : String) (statOk : Bool) (sb : Stat) (openOk : Bool)
    (entries : List (String × FSTree)) (st : ScanSt) :
    process_entry ext allocOk idn dir name (.node statOk sb openOk entries) st =
      (if skip_special name then Except.ok st
      else if name_too_long dir name then Except.ok st
      else if !statOk then Except.ok st
      else if S_ISLNK sb.st_mode then Except.ok st
      else
        match record_access_level ext allocOk idn (join_path dir name) sb st with
        | Except.error e => Except.error e
        | Except.ok st2 =>
          if S_ISDIR sb.st_mode && is_executable idn sb then
            scan_directory ext allocOk idn (join_path dir name)
              (.node statOk sb openOk entries) st2
          else Except.ok st2) := by
  conv_lhs => unfold process_entry

/-! The five named buckets, with their priority order, used to state what
`record_access_level` does. -/

/-- Names of the five buckets of the store. -/
inductive Bucket where
  | set_uid
  | set_gid
  | writable
  | readable
  | executable_only
deriving DecidableEq

/-- Position of a bucket in the priority chain (0 is highest priority). -/
def prio : Bucket → Nat
  | .set_uid => 0
  | .set_gid => 1
  | .writable => 2
  | .readable => 3
  | .executable_only => 4

/-- Whether the object matches a bucket's category: the predicates of the
evaluator, with the last two categories available only in extended mode. -/
def bucket_matches (ext : Bool) (idn : Identity) (sb : Stat) : Bucket → Bool
  | .set_uid => is_setuid idn sb
  | .set_gid => is_setgid idn sb
  | .writable => is_writable idn sb
  | .readable => ext && is_readable idn sb
  | .executable_only => ext && is_executable idn sb

/-- The bucket `record_access_level`'s chain selects, if any. -/
def bucketOf (ext : Bool) (idn : Identity) (sb : Stat) : Option Bucket :=
  if is_setuid idn sb then some .set_uid
  else if is_setgid idn sb then some .set_gid
  else if is_writable idn sb then some .writable
  else if ext then
    if is_readable idn sb then some .readable
    else if is_executable idn sb then some .executable_only
    else none
  else none

/-- Read one bucket of the scan state. -/
def getBucket (st : ScanSt) : Bucket → entries_t
  | .set_uid => st.g_suid
  | .set_gid => st.g_sgid
  | .writable => st.g_writable
  | .readable => st.g_readable
  | .executable_only => st.g_executable

/-- Replace one bucket of the scan state, leaving the other four as they
were. -/
def setBucket (st : ScanSt) : Bucket → entries_t → ScanSt
  | .set_uid, e => ⟨e, st.g_sgid, st.g_writable, st.g_readable, st.g_executable⟩
  | .set_gid, e => ⟨st.g_suid, e, st.g_writable, st.g_readable, st.g_executable⟩
  | .writable, e => ⟨st.g_suid, st.g_sgid, e, st.g_readable, st.g_executable⟩
  | .readable, e => ⟨st.g_suid, st.g_sgid, st.g_writable, e, st.g_executable⟩
  | .executable_only, e => ⟨st.g_suid, st.g_sgid, st.g_writable, st.g_readable, e⟩

/-! Theorems. -/

/-- Membership in the group list is what the `in_group` scan decides. -/
theorem in_group_iff (idn : Identity) (g : Nat) :
    in_group idn g = true ↔ g ∈ idn.gids := by
  simp [in_group, List.any_eq_true, beq_iff_eq]

/-- Claim C2: `is_executable` returns true iff the identity's uid is 0, or
the other-execute bit is set, or the owner-execute bit is set and the owner
uid matches, or the group-execute bit is set and the owner gid is in the
identity's group list; in particular uid 0 always yields true. -/
theorem is_executable_iff (idn : Identity) (sb : Stat) :
    is_executable idn sb = true ↔
      (idn.uid = 0 ∨ sb.st_mode &&& S_IXOTH ≠ 0 ∨
        (sb.st_mode &&& S_IXUSR ≠ 0 ∧ sb.st_uid = idn.uid) ∨
        (sb.st_mode &&& S_IXGRP ≠ 0 ∧ sb.st_gid ∈ idn.gids)) := by
  simp only [is_executable]
  split_ifs with h1 h2 h3 h4 <;>
    simp_all [bne_iff_ne, beq_iff_eq, Bool.and_eq_true, in_group_iff]

/-- Claim C3: `is_writable` and `is_readable` use the same owner/group/other
logic as `is_executable` but with no root bypass: for every identity,
including uid 0, they are true exactly when a matching permission bit is
set. -/
theorem is_writable_is_readable_iff (idn : Identity) (sb : Stat) :
    (is_writable idn sb = true ↔
      (sb.st_mode &&& S_IWOTH ≠ 0 ∨
        (sb.st_mode &&& S_IWUSR ≠ 0 ∧ sb.st_uid = idn.uid) ∨
        (sb.st_mode &&& S_IWGRP ≠ 0 ∧ sb.st_gid ∈ idn.gids))) ∧
    (is_readable idn sb = true ↔
      (sb.st_mode &&& S_IROTH ≠ 0 ∨
        (sb.st_mode &&& S_IRUSR ≠ 0 ∧ sb.st_uid = idn.uid) ∨
        (sb.st_mode &&& S_IRGRP ≠ 0 ∧ sb.st_gid ∈ idn.gids))) := by
  constructor
  · simp only [is_writable]
    split_ifs with h1 h2 h3 <;>
      simp_all [bne_iff_ne, beq_iff_eq, Bool.and_eq_true, in_group_iff]
  · simp only [is_readable]
    split_ifs with h1 h2 h3 <;>
      simp_all [bne_iff_ne, beq_iff_eq, Bool.and_eq_true, in_group_iff]

/-- A statement over all five buckets is the conjunction of its five
instances. -/
theorem bucket_forall (P : Bucket → Prop) :
    (∀ b, P b) ↔
      (P .set_uid ∧ P .set_gid ∧ P .writable ∧ P .readable ∧
        P .executable_only) := by
  constructor
  · intro h
    exact ⟨h _, h _, h _, h _, h _⟩
  · rintro ⟨h1, h2, h3, h4, h5⟩ b
    cases b <;> assumption

/-- The chain of `record_access_level` appends to exactly the bucket
`bucketOf` names, leaving the other four untouched, and records nothing
when `bucketOf` is `none`. -/
theorem record_access_level_eq (ext allocOk : Bool) (idn : Identity)
    (path : String) (sb : Stat) (st : ScanSt) :
    record_access_level ext allocOk idn path sb st =
      (match bucketOf ext idn sb with
      | none => Except.ok st
      | some b => (record_access allocOk (getBucket st b) path sb).map (setBucket st b)) := by
  simp only [record_access_level, bucketOf]
  split_ifs <;> rfl

/-- The bucket `bucketOf` selects is a matching one of least `prio`. -/
theorem bucketOf_highest (ext : Bool) (idn : Identity) (sb : Stat) (b : Bucket) :
    bucketOf ext idn sb = some b ↔
      (bucket_matches ext idn sb b = true ∧
        ∀ b2, bucket_matches ext idn sb b2 = true → prio b ≤ prio b2) := by
  rw [bucket_forall (fun b2 => bucket_matches ext idn sb b2 = true → prio b ≤ prio b2)]
  cases b <;> cases ext <;>
    cases h1 : is_setuid idn sb <;> cases h2 : is_setgid idn sb <;>
    cases h3 : is_writable idn sb <;> cases h4 : is_readable idn sb <;>
    cases h5 : is_executable idn sb <;>
      simp_all [bucketOf, bucket_matches, prio]

/-- `bucketOf` is `none` exactly when no category matches. -/
theorem bucketOf_none (ext : Bool) (idn : Identity) (sb : Stat) :
    bucketOf ext idn sb = none ↔
      ∀ b, bucket_matches ext idn sb b = false := by
  rw [bucket_forall (fun b => bucket_matches ext idn sb b = false)]
  cases ext <;>
    cases h1 : is_setuid idn sb <;> cases h2 : is_setgid idn sb <;>
    cases h3 : is_writable idn sb <;> cases h4 : is_readable idn sb <;>
    cases h5 : is_executable idn sb <;>
      simp_all [bucketOf, bucket_matches]

/-- Claim C1: bucket assignment follows the strict priority chain setuid,
setgid, writable (then, in extended mode only, readable, executable-only),
first match wins: `record_access_level` appends the object to exactly the
bucket `bucketOf` selects and leaves the other four buckets untouched;
the selected bucket is the matching one of highest priority, and when no
category matches nothing is recorded. -/
theorem record_access_level_priority (ext allocOk : Bool) (idn : Identity)
    (path : String) (sb : Stat) (st : ScanSt) :
    (record_access_level ext allocOk idn path sb st =
      (match bucketOf ext idn sb with
      | none => Except.ok st
      | some b => (record_access allocOk (getBucket st b) path sb).map (setBucket st b))) ∧
    (∀ b, bucketOf ext idn sb = some b ↔
      (bucket_matches ext idn sb b = true ∧
        ∀ b2, bucket_matches ext idn sb b2 = true → prio b ≤ prio b2)) ∧
    (bucketOf ext idn sb = none ↔
      ∀ b, bucket_matches ext idn sb b = false) ∧
    (∀ b e b2, b2 ≠ b →
      getBucket (setBucket st b e) b2 = getBucket st b2 ∧
        getBucket (setBucket st b e) b = e) :=
  ⟨record_access_level_eq ext allocOk idn path sb st,
   fun b => bucketOf_highest ext idn sb b,
   bucketOf_none ext idn sb,
   fun b e b2 h => by
    cases b <;> cases b2 <;> simp_all [getBucket, setBucket]⟩

/-- Claim C4: `is_setuid` holds exactly when `can_execute` holds and the
setuid bit is set, and such an object is appended to the `g_suid` bucket
with the other four buckets untouched, even if it is also writable. -/
theorem is_setuid_spec (ext allocOk : Bool) (idn : Identity) (path : String)
    (sb : Stat) (st : ScanSt) :
    (is_setuid idn sb = true ↔
      (is_executable idn sb = true ∧ sb.st_mode &&& S_ISUID ≠ 0)) ∧
    (is_setuid idn sb = true →
      record_access_level ext allocOk idn path sb st =
        (record_access allocOk st.g_suid path sb).map
          (fun e => ⟨e, st.g_sgid, st.g_writable, st.g_readable, st.g_executable⟩)) := by
  constructor
  · simp [is_setuid, Bool.and_eq_true, bne_iff_ne]
  · intro h
    simp [record_access_level, h]

/-- Claim C5: the walker's dot-entry test skips exactly the names `.` and
`..`; every other name, dot-prefixed ones included, is not skipped. -/
theorem skip_special_iff (name : String) :
    skip_special name = true ↔ name = "." ∨ name = ".." := by
  have hiff : (name = "." ∨ name = "..") ↔
      (name.data = ['.'] ∨ name.data = ['.', '.']) := by
    constructor
    · rintro (rfl | rfl) <;> simp
    · rintro (h | h)
      · exact Or.inl (String.ext h)
      · exact Or.inr (String.ext h)
  rw [hiff]
  unfold skip_special
  rcases hd : name.data with _ | ⟨c0, _ | ⟨c1, _ | ⟨c2, rest2⟩⟩⟩
  · simp
  · by_cases hc0 : c0 = '.' <;> simp [hc0]
  · by_cases hc0 : c0 = '.' <;> by_cases hc1 : c1 = '.' <;> simp [hc0, hc1]
  · by_cases hc0 : c0 = '.' <;> by_cases hc1 : c1 = '.' <;> simp [hc0, hc1]

/-- Claim C6: an entry whose `lstat` metadata marks a symbolic link is
skipped entirely: the scan state is returned unchanged (nothing appended to
any bucket) and the entry is not recursed into, whatever its subtree. -/
theorem symlink_never_recorded (ext allocOk : Bool) (idn : Identity)
    (dir name : String) (sb : Stat) (openOk : Bool)
    (entries : List (String × FSTree)) (st : ScanSt)
    (h : S_ISLNK sb.st_mode = true) :
    process_entry ext allocOk idn dir name (.node true sb openOk entries) st =
      Except.ok st := by
  unfold process_entry
  split_ifs <;> simp_all

/-- Witness for claim C6: a symlink (mode `0120777`) under `/a`. -/
theorem symlink_never_recorded_witness :
    process_entry false true ⟨1000, [1000]⟩ "/a" "b"
      (.node true ⟨41471, 0, 0⟩ true []) emptySt = Except.ok emptySt :=
  symlink_never_recorded false true ⟨1000, [1000]⟩ "/a" "b" ⟨41471, 0, 0⟩
    true [] emptySt (by decide)

/-- A directory is not a symlink: the file-type fields of `st_mode` differ. -/
theorem S_ISDIR_not_lnk (m : Nat) (h : S_ISDIR m = true) : S_ISLNK m = false := by
  simp only [S_ISDIR, beq_iff_eq] at h
  simp only [S_ISLNK, h]
  decide

/-- Claim C7: a non-skipped entry that is a directory is recursed into
exactly when `is_executable` holds for it: when it does not, processing the
entry is just the classification of the directory itself, independent of
everything below it (so nothing strictly below an unexecutable directory is
ever recorded); when it does, the walker descends after classifying. -/
theorem dir_recursion_gate (ext allocOk : Bool) (idn : Identity)
    (dir name : String) (sb : Stat) (openOk : Bool)
    (entries : List (String × FSTree)) (st : ScanSt)
    (hskip : skip_special name = false) (hlen : name_too_long dir name = false)
    (hdir : S_ISDIR sb.st_mode = true) :
    (is_executable idn sb = false →
      process_entry ext allocOk idn dir name (.node true sb openOk entries) st =
        record_access_level ext allocOk idn (join_path dir name) sb st) ∧
    (is_executable idn sb = true →
      process_entry ext allocOk idn dir name (.node true sb openOk entries) st =
        (match record_access_level ext allocOk idn (join_path dir name) sb st with
        | Except.error e => Except.error e
        | Except.ok st2 =>
          scan_directory ext allocOk idn (join_path dir name)
            (.node true sb openOk entries) st2)) := by
  have hlnk : S_ISLNK sb.st_mode = false := S_ISDIR_not_lnk sb.st_mode hdir
  constructor
  · intro hexec
    unfold process_entry
    simp only [hskip, hlen, hlnk, hdir, hexec, Bool.false_eq_true, if_false,
      Bool.not_true, Bool.and_false]
    cases record_access_level ext allocOk idn (join_path dir name) sb st <;> rfl
  · intro hexec
    unfold process_entry
    simp only [hskip, hlen, hlnk, hdir, hexec, Bool.false_eq_true, if_false,
      Bool.not_true, Bool.and_self, if_true]

/-- Witness for claim C7: directory `d` of mode `040700` owned by root is
not executable by uid 1000, so the walker classifies it and ignores the
writable file below it; were it executable, the walker would descend. -/
theorem dir_recursion_gate_witness :
    (is_executable ⟨1000, [1000]⟩ ⟨16832, 0, 0⟩ = false →
      process_entry false true ⟨1000, [1000]⟩ "/a" "d"
        (.node true ⟨16832, 0, 0⟩ true [("x", .node true ⟨438, 0, 0⟩ true [])])
        emptySt =
        record_access_level false true ⟨1000, [1000]⟩ (join_path "/a" "d")
          ⟨16832, 0, 0⟩ emptySt) ∧
    (is_executable ⟨1000, [1000]⟩ ⟨16832, 0, 0⟩ = true →
      process_entry false true ⟨1000, [1000]⟩ "/a" "d"
        (.node true ⟨16832, 0, 0⟩ true [("x", .node true ⟨438, 0, 0⟩ true [])])
        emptySt =
        (match record_access_level false true ⟨1000, [1000]⟩ (join_path "/a" "d")
            ⟨16832, 0, 0⟩ emptySt with
        | Except.error e => Except.error e
        | Except.ok st2 =>
          scan_directory false true ⟨1000, [1000]⟩ (join_path "/a" "d")
            (.node true ⟨16832, 0, 0⟩ true [("x", .node true ⟨438, 0, 0⟩ true [])])
            st2)) :=
  dir_recursion_gate false true ⟨1000, [1000]⟩ "/a" "d" ⟨16832, 0, 0⟩ true
    [("x", .node true ⟨438, 0, 0⟩ true [])] emptySt (by decide) (by decide)
    (by decide)

/-- With successful allocation `record_access` always returns a bucket. -/
theorem record_access_total (p : entries_t) (path : String) (sb : Stat) :
    ∃ e, record_access true p path sb = Except.ok e := by
  unfold record_access
  by_cases h : p.idx + 1 > p.len <;> simp [h]

/-- With successful allocation an update through `record_access` always
returns a state. -/
theorem record_access_map_total (p : entries_t) (path : String) (sb : Stat)
    (f : entries_t → ScanSt) :
    ∃ st2, (record_access true p path sb).map f = Except.ok st2 := by
  obtain ⟨e, he⟩ := record_access_total p path sb
  exact ⟨f e, by rw [he]; rfl⟩

/-- With successful allocation `record_access_level` always returns a
state. -/
theorem record_access_level_total (ext : Bool) (idn : Identity)
    (path : String) (sb : Stat) (st : ScanSt) :
    ∃ st2, record_access_level ext true idn path sb st = Except.ok st2 := by
  unfold record_access_level
  split_ifs <;> first
    | exact ⟨st, rfl⟩
    | exact record_access_map_total _ path sb _

mutual

/-- With successful allocation `scan_directory` always completes with a
state: no failure inside the walk terminates the scan. -/
theorem scan_directory_total (ext : Bool) (idn : Identity) (dir : String)
    (t : FSTree) (st : ScanSt) :
    ∃ st2, scan_directory ext true idn dir t st = Except.ok st2 := by
  match t with
  | .node statOk sb openOk entries =>
    rw [scan_directory_node]
    by_cases h : openOk = true
    · rw [if_pos h]
      exact scan_entries_total ext idn dir entries st
    · rw [if_neg h]
      exact ⟨st, rfl⟩
termination_by (sizeOf t, 0)

/-- With successful allocation `scan_entries` always completes. -/
theorem scan_entries_total (ext : Bool) (idn : Identity) (dir : String)
    (es : List (String × FSTree)) (st : ScanSt) :
    ∃ st2, scan_entries ext true idn dir es st = Except.ok st2 := by
  match es with
  | [] =>
    exact ⟨st, scan_entries_nil ext true idn dir st⟩
  | (name, child) :: rest =>
    rw [scan_entries_cons]
    obtain ⟨st2, h2⟩ := process_entry_total ext idn dir name child st
    rw [h2]
    exact scan_entries_total ext idn dir rest st2
termination_by (sizeOf es, 2)

/-- With successful allocation `process_entry` always completes. -/
theorem process_entry_total (ext : Bool) (idn : Identity) (dir name : String)
    (child : FSTree) (st : ScanSt) :
    ∃ st2, process_entry ext true idn dir name child st = Except.ok st2 := by
  match child with
  | .node statOk sb openOk entries =>
    rw [process_entry_node]
    split_ifs with h1 h2 h3 h4 h5
    · exact ⟨st, rfl⟩
    · exact ⟨st, rfl⟩
    · exact ⟨st, rfl⟩
    · exact ⟨st, rfl⟩
    · split
      · rename_i e he
        obtain ⟨stR, hR⟩ :=
          record_access_level_total ext idn (join_path dir name) sb st
        rw [he] at hR
        cases hR
      · rename_i stR he
        exact scan_directory_total ext idn (join_path dir name)
          (.node statOk sb openOk entries) stR
    · split
      · rename_i e he
        obtain ⟨stR, hR⟩ :=
          record_access_level_total ext idn (join_path dir name) sb st
        rw [he] at hR
        cases hR
      · rename_i stR he
        exact ⟨stR, rfl⟩
termination_by (sizeOf child, 1)

end

/-- Claim C8: a failed `opendir` and the per-entry failures (failed
`lstat`, too-long constructed path) are non-fatal: the walker returns the
buckets unchanged and the traversal goes on; when every allocation
succeeds the whole scan always completes normally, and an allocation
failure while growing a bucket is the one walker-level fatality
(`exit(1)`, modelled as `Except.error`). -/
theorem walker_failure_semantics (ext allocOk : Bool) (idn : Identity)
    (dir name : String) (statOk openOk : Bool) (sb : Stat)
    (entries1 entries2 : List (String × FSTree)) (child : FSTree)
    (st : ScanSt) :
    (scan_directory ext allocOk idn dir (.node statOk sb false entries1) st =
      Except.ok st) ∧
    (process_entry ext allocOk idn dir name (.node false sb openOk entries2) st =
      Except.ok st) ∧
    (name_too_long dir name = true →
      process_entry ext allocOk idn dir name child st = Except.ok st) ∧
    (∀ t st2 dir2, ∃ st3,
      scan_directory ext true idn dir2 t st2 = Except.ok st3) ∧
    (record_access false entriesNil "p" statZero = Except.error ()) := by
  refine ⟨?_, ?_, ?_,
    fun t st2 dir2 => scan_directory_total ext idn dir2 t st2, rfl⟩
  · rw [scan_directory_node]
    simp
  · rw [process_entry_node]
    simp
  · intro h
    cases child with
    | node cs csb co ce =>
      rw [process_entry_node]
      simp [h]

/-- A bucket at full capacity: two slots, both used. -/
def twoFull : entries_t := ⟨2, 2, [⟨"a", statZero⟩, ⟨"b", statZero⟩]⟩

/-- Counterexample to claim C9: appending to the full two-slot bucket
`twoFull` reallocates its backing array to capacity exactly `2 + 1 = 3`,
not more — the growth is one element per reallocation, not amortized. -/
theorem record_access_growth_cex :
    (record_access true twoFull "p" statZero).map entries_t.len =
      Except.ok (twoFull.len + 1) ∧ twoFull.len = 2 ∧
      (record_access true twoFull "p" statZero).map entries_t.len ≠
        Except.ok (twoFull.len + 2) :=
  ⟨rfl, rfl, fun hcon => absurd (Except.ok.inj hcon) (by decide)⟩

/-- Claim C9 amended: whenever an append finds the backing array full, the
store reallocates it to a capacity larger by exactly one element
(one-at-a-time growth), so a reallocation happens on every such append. -/
theorem record_access_growth_by_one (p : entries_t) (path : String)
    (sb : Stat) (h : p.idx + 1 > p.len) :
    (record_access true p path sb).map entries_t.len =
      Except.ok (p.len + 1) := by
  unfold record_access
  simp [h, Except.map]

/-- Witness for the amended claim C9 at the concrete full bucket. -/
theorem record_access_growth_by_one_witness :
    (record_access true twoFull "q" statZero).map entries_t.len =
      Except.ok (twoFull.len + 1) :=
  record_access_growth_by_one twoFull "q" statZero (by decide)

/-- Claim C10: under the invariant `idx ≤ len` and `head` of length `len`,
a successful append returns a bucket whose count is one more, still within
capacity, with the new record (its own copy of path and stat) at position
old `idx`, and with every previously recorded position unchanged. -/
theorem record_access_invariant (allocOk : Bool) (p p2 : entries_t)
    (path : String) (sb : Stat) (hidx : p.idx ≤ p.len)
    (hlen : p.head.length = p.len)
    (h : record_access allocOk p path sb = Except.ok p2) :
    p2.idx = p.idx + 1 ∧ p2.idx ≤ p2.len ∧ p2.head.length = p2.len ∧
      p2.head[p.idx]? = some ⟨path, sb⟩ ∧
      ∀ i, i < p.idx → p2.head[i]? = p.head[i]? := by
  simp only [record_access] at h
  by_cases hg : p.idx + 1 > p.len
  · rw [if_pos hg] at h
    cases allocOk
    · exact absurd h (by simp)
    · rw [if_pos rfl] at h
      have hfull : p.idx = p.len := by omega
      injection h with h2
      subst h2
      refine ⟨rfl, by simpa using hidx, ?_, ?_, ?_⟩
      · simp [List.length_set, List.length_append, hlen]
      · rw [List.getElem?_set_eq_of_lt]
        simp [List.length_append, hlen]
        omega
      · intro i hi
        rw [List.getElem?_set_ne (by omega)]
        exact List.getElem?_append_left (by omega)
  · rw [if_neg hg] at h
    have hlt : p.idx < p.len := by omega
    injection h with h2
    subst h2
    refine ⟨rfl, by simp; omega, by simp [List.length_set, hlen], ?_, ?_⟩
    · exact List.getElem?_set_eq_of_lt _ (by omega)
    · intro i hi
      exact List.getElem?_set_ne (by omega)

/-- Witness for claim C10: appending `"p"` to a one-slot bucket holding
`"q"` in its single used slot after growth. -/
theorem record_access_invariant_witness :
    (⟨2, 2, [⟨"q", statZero⟩, ⟨"p", statZero⟩]⟩ : entries_t).idx = 1 + 1 ∧
      (⟨2, 2, [⟨"q", statZero⟩, ⟨"p", statZero⟩]⟩ : entries_t).idx ≤
        (⟨2, 2, [⟨"q", statZero⟩, ⟨"p", statZero⟩]⟩ : entries_t).len ∧
      (⟨2, 2, [⟨"q", statZero⟩, ⟨"p", statZero⟩]⟩ : entries_t).head.length =
        (⟨2, 2, [⟨"q", statZero⟩, ⟨"p", statZero⟩]⟩ : entries_t).len ∧
      (⟨2, 2, [⟨"q", statZero⟩, ⟨"p", statZero⟩]⟩ : entries_t).head[
        (⟨1, 1, [⟨"q", statZero⟩]⟩ : entries_t).idx]? = some ⟨"p", statZero⟩ ∧
      ∀ i, i < (⟨1, 1, [⟨"q", statZero⟩]⟩ : entries_t).idx →
        (⟨2, 2, [⟨"q", statZero⟩, ⟨"p", statZero⟩]⟩ : entries_t).head[i]? =
          (⟨1, 1, [⟨"q", statZero⟩]⟩ : entries_t).head[i]? :=
  record_access_invariant true ⟨1, 1, [⟨"q", statZero⟩]⟩
    ⟨2, 2, [⟨"q", statZero⟩, ⟨"p", statZero⟩]⟩ "p" statZero (by decide)
    (by decide) rfl

end Canhazaxs
